import Mathlib

/-!
Formal model of the Kinetic Ledger API gateway
(`apps/api-gateway/main.py`): the admission-control and authentication
pipeline — per-client sliding-window rate limiting (`rate_limit`),
HMAC-SHA256 webhook verification (`verify_hmac`), the two webhook
handlers, and attestation issuance (`generate_attestation`).

Bytes are natural numbers below 256, wall-clock times are exact
rationals, and the Python dict store is a total function from the
client identity to its timestamp list. SHA-256 and HMAC-SHA256 are
implemented in full so that digests of concrete inputs evaluate inside
the kernel.
-/

set_option maxRecDepth 4000

attribute [local semireducible] Rat.sub Rat.add Rat.mul Rat.inv

namespace KineticGateway

/-! ### SHA-256, executable, over byte lists -/

/-- Two to the thirty-second power: the word modulus of SHA-256. -/
def w32 : ℕ := 4294967296

/-- Rotate a 32-bit word right by `n` positions. -/
def rotr32 (n x : ℕ) : ℕ := ((x >>> n) ||| (x <<< (32 - n))) % w32

/-- The SHA-256 choice function Ch(x,y,z). -/
def shaCh (x y z : ℕ) : ℕ := (x &&& y) ^^^ ((x ^^^ 4294967295) &&& z)

/-- The SHA-256 majority function Maj(x,y,z). -/
def shaMaj (x y z : ℕ) : ℕ := (x &&& y) ^^^ (x &&& z) ^^^ (y &&& z)

/-- The SHA-256 compression sigma Σ0. -/
def bigSigma0 (x : ℕ) : ℕ := rotr32 2 x ^^^ rotr32 13 x ^^^ rotr32 22 x

/-- The SHA-256 compression sigma Σ1. -/
def bigSigma1 (x : ℕ) : ℕ := rotr32 6 x ^^^ rotr32 11 x ^^^ rotr32 25 x

/-- The SHA-256 message-schedule sigma σ0. -/
def smallSigma0 (x : ℕ) : ℕ := rotr32 7 x ^^^ rotr32 18 x ^^^ (x >>> 3)

/-- The SHA-256 message-schedule sigma σ1. -/
def smallSigma1 (x : ℕ) : ℕ := rotr32 17 x ^^^ rotr32 19 x ^^^ (x >>> 10)

/-- The 64 SHA-256 round constants of FIPS 180-4, written in decimal. -/
def shaK : List ℕ :=
  [1116352408, 1899447441, 3049323471, 3921009573, 961987163,
   1508970993, 2453635748, 2870763221, 3624381080, 310598401,
   607225278, 1426881987, 1925078388, 2162078206, 2614888103,
   3248222580, 3835390401, 4022224774, 264347078, 604807628,
   770255983, 1249150122, 1555081692, 1996064986, 2554220882,
   2821834349, 2952996808, 3210313671, 3336571891, 3584528711,
   113926993, 338241895, 666307205, 773529912, 1294757372,
   1396182291, 1695183700, 1986661051, 2177026350, 2456956037,
   2730485921, 2820302411, 3259730800, 3345764771, 3516065817,
   3600352804, 4094571909, 275423344, 430227734, 506948616,
   659060556, 883997877, 958139571, 1322822218, 1537002063,
   1747873779, 1955562222, 2024104815, 2227730452, 2361852424,
   2428436474, 2756734187, 3204031479, 3329325298]

/-- The eight SHA-256 initial hash words, written in decimal. -/
def shaInit : List ℕ :=
  [1779033703, 3144134277, 1013904242, 2773480762,
   1359893119, 2600822924, 528734635, 1541459225]

/-- Pack bytes into big-endian 32-bit words, four at a time. -/
def bytesToWords : List ℕ → List ℕ
  | a :: b :: c :: d :: rest => (((a * 256 + b) * 256 + c) * 256 + d) :: bytesToWords rest
  | _ => []

/-- Extend the message schedule; `acc` holds the words produced so far,
most recent first. -/
def extendW : ℕ → List ℕ → List ℕ
  | 0, acc => acc
  | fuel + 1, acc =>
    let nw := (smallSigma1 (acc.getD 1 0) + acc.getD 6 0 +
               smallSigma0 (acc.getD 14 0) + acc.getD 15 0) % w32
    extendW fuel (nw :: acc)

/-- The 64-entry message schedule of one 16-word block. -/
def schedule (block16 : List ℕ) : List ℕ := (extendW 48 block16.reverse).reverse

/-- One SHA-256 round; the state is the eight working words `[a..h]`. -/
def sha256Round (kw : ℕ × ℕ) (st : List ℕ) : List ℕ :=
  match st with
  | [a, b, c, d, e, f, g, h] =>
    let t1 := (h + bigSigma1 e + shaCh e f g + kw.1 + kw.2) % w32
    let t2 := (bigSigma0 a + shaMaj a b c) % w32
    [(t1 + t2) % w32, a, b, c, (d + t1) % w32, e, f, g]
  | other => other

/-- Compress one 64-byte block into the running hash state. -/
def compressBlock (st : List ℕ) (block : List ℕ) : List ℕ :=
  let ws := schedule (bytesToWords block)
  let fin := (shaK.zip ws).foldl (fun s kw => sha256Round kw s) st
  (st.zip fin).map (fun p => (p.1 + p.2) % w32)

/-- A 64-bit big-endian length field, as eight bytes. -/
def be64 (n : ℕ) : List ℕ :=
  [(n >>> 56) % 256, (n >>> 48) % 256, (n >>> 40) % 256, (n >>> 32) % 256,
   (n >>> 24) % 256, (n >>> 16) % 256, (n >>> 8) % 256, n % 256]

/-- SHA-256 padding: a 0x80 byte, zeros to 56 mod 64, then the bit length. -/
def padMessage (msg : List ℕ) : List ℕ :=
  let L := msg.length
  let zeros := (55 + 64 - L % 64) % 64
  msg ++ [0x80] ++ List.replicate zeros 0 ++ be64 (8 * L)

/-- Fold the compression function over `n` consecutive 64-byte blocks. -/
def sha256Blocks (st : List ℕ) (l : List ℕ) : ℕ → List ℕ
  | 0 => st
  | n + 1 => sha256Blocks (compressBlock st (l.take 64)) (l.drop 64) n

/-- The four big-endian bytes of a 32-bit word. -/
def wordBytes (w : ℕ) : List ℕ :=
  [(w >>> 24) % 256, (w >>> 16) % 256, (w >>> 8) % 256, w % 256]

/-- SHA-256 of a byte list, as the 32 digest bytes. -/
def sha256Bytes (msg : List ℕ) : List ℕ :=
  let p := padMessage msg
  ((sha256Blocks shaInit p (p.length / 64)).map wordBytes).flatten

/-- A hex nibble as a lowercase character. -/
def hexChar (n : ℕ) : Char :=
  if n < 10 then Char.ofNat (48 + n) else Char.ofNat (87 + n)

/-- Lowercase hex rendering of a byte list. -/
def bytesToHex (bs : List ℕ) : String :=
  String.mk ((bs.map (fun b => [hexChar (b / 16), hexChar (b % 16)])).flatten)

/-- Lowercase hex SHA-256 digest, as `hashlib.sha256(...).hexdigest()`. -/
def sha256Hex (msg : List ℕ) : String := bytesToHex (sha256Bytes msg)

/-- UTF-8 encoding of one character. -/
def charBytes (c : Char) : List ℕ :=
  let n := c.toNat
  if n < 128 then [n]
  else if n < 2048 then [192 + n / 64, 128 + n % 64]
  else if n < 65536 then [224 + n / 4096, 128 + (n / 64) % 64, 128 + n % 64]
  else [240 + n / 262144, 128 + (n / 4096) % 64, 128 + (n / 64) % 64, 128 + n % 64]

/-- UTF-8 encoding of a string, as Python's `str.encode()`. -/
def strBytes (s : String) : List ℕ := (s.data.map charBytes).flatten

/-- HMAC-SHA256 digest bytes, as Python's `hmac.new(key, msg, hashlib.sha256)`. -/
def hmacSha256 (key msg : List ℕ) : List ℕ :=
  let k0 := if 64 < key.length then sha256Bytes key else key
  let k := k0 ++ List.replicate (64 - k0.length) 0
  let ipadded := k.map (fun b => b ^^^ 0x36)
  let opadded := k.map (fun b => b ^^^ 0x5c)
  sha256Bytes (opadded ++ sha256Bytes (ipadded ++ msg))

/-- Lowercase hex HMAC-SHA256, as `hmac.new(...).hexdigest()`. -/
def hmacSha256Hex (key msg : List ℕ) : String := bytesToHex (hmacSha256 key msg)

/-! ### Gateway data model (`main.py`, `Settings` and the Pydantic models) -/

/-- The settings fields this core consumes (`Settings`, lines 55–94):
the webhook shared secret and the two rate-limit parameters. -/
structure GatewaySettings where
  webhook_secret : String
  rate_limit_requests : ℕ
  rate_limit_window : ℕ
deriving DecidableEq

/-- A `fastapi.HTTPException`: a status code and a detail string. -/
structure GatewayError where
  status : ℕ
  detail : String
deriving DecidableEq

/-- The HTTP status of an outcome: an error's code, 200 on success. -/
def statusOf {α : Type} (r : Except GatewayError α) : ℕ :=
  match r with
  | Except.ok _ => 200
  | Except.error e => e.status

/-- The in-memory `rate_limit_store : dict[str, list[float]]` (line 100),
as a total function; absent keys read as the empty list, matching the
`if client_ip not in rate_limit_store` initialisation. -/
def RateStore : Type := String → List ℚ

/-- The store at process start: no identity has any recorded timestamp. -/
def emptyStore : RateStore := fun _ => []

/-- Point update of the store: `rate_limit_store[client_ip] = l`. -/
def updateStore (s : RateStore) (ip : String) (l : List ℚ) : RateStore :=
  fun k => if k = ip then l else s k

/-- The rate-limit key: `request.client.host if request.client else "unknown"`. -/
def clientIp (client : Option String) : String := client.getD "unknown"

/-- The lazy prune (lines 244–247): keep `ts` iff `current_time - ts < window`. -/
def pruneList (window : ℕ) (now : ℚ) (l : List ℚ) : List ℚ :=
  l.filter (fun ts => now - ts < (window : ℚ))

/-- The 429 detail string (line 260). -/
def rateLimitDetail (st : GatewaySettings) : String :=
  "Rate limit: " ++ toString st.rate_limit_requests ++ " req/" ++
    toString st.rate_limit_window ++ "s"

/-- The `rate_limit` dependency (lines 235–263): prune the caller's
timestamps, store the pruned list, reject with 429 when the pruned count
reaches the limit, otherwise record `now` and allow. Returns the
admission outcome together with the updated store. -/
def rate_limit (st : GatewaySettings) (store : RateStore) (client : Option String)
    (now : ℚ) : Except GatewayError Unit × RateStore :=
  let client_ip := clientIp client
  let pruned := pruneList st.rate_limit_window now (store client_ip)
  if st.rate_limit_requests ≤ pruned.length then
    (Except.error ⟨429, rateLimitDetail st⟩, updateStore store client_ip pruned)
  else
    (Except.ok (), updateStore store client_ip (pruned ++ [now]))

/-- Whether an admission outcome is an allowance. -/
def isAllowed (r : Except GatewayError Unit) : Bool :=
  match r with
  | Except.ok _ => true
  | Except.error _ => false

/-- A sequence of `rate_limit` calls by one client, threading the store
and collecting each call's admission verdict. -/
def runCalls (st : GatewaySettings) (store : RateStore) (client : Option String) :
    List ℚ → RateStore × List Bool
  | [] => (store, [])
  | t :: ts =>
    let r := rate_limit st store client t
    let rest := runCalls st r.2 client ts
    (rest.1, isAllowed r.1 :: rest.2)

/-! ### HMAC verification (`verify_hmac`, lines 267–291) -/

/-- Modelled from the spec: the comparison kernel of Python's
`hmac.compare_digest` (stdlib, its source is outside this repository),
following the spec's words — a constant-time comparison that never
short-circuits on the first mismatched byte. The scan walks both inputs
to the very end, accumulating the per-position differences; it returns
that accumulator together with the number of positions examined, the
latter standing for the comparison's running time. -/
def ctScan : List Char → List Char → ℕ × ℕ
  | [], bs => (bs.length, bs.length)
  | _ :: as, [] =>
    let r := ctScan as []
    (r.1 + 1, r.2 + 1)
  | a :: as, b :: bs =>
    let r := ctScan as bs
    (r.1 + (a.toNat ^^^ b.toNat), r.2 + 1)

/-- Modelled from the spec: `hmac.compare_digest` — true iff the
accumulated difference over the full scan is zero. -/
def compare_digest (a b : String) : Bool := (ctScan a.data b.data).1 == 0

/-- The number of positions `compare_digest` examines on the given
inputs: the cost model for the timing claim. -/
def ctSteps (a b : String) : ℕ := (ctScan a.data b.data).2

/-- The expected signature header value for a secret and raw body:
`"sha256=" ++` the lowercase hex HMAC-SHA256 digest (lines 281–287). -/
def expectedSig (secret : String) (body : List ℕ) : String :=
  "sha256=" ++ hmacSha256Hex (strBytes secret) body

/-- The `verify_hmac` dependency (lines 267–291). An empty configured
secret skips verification; a missing or empty `X-Signature` header is a
401; otherwise the header is compared against `"sha256=" ++ hexdigest`
of the raw body with `compare_digest`. -/
def verify_hmac (secret : String) (body : List ℕ) (x_signature : Option String) :
    Except GatewayError Unit :=
  if secret = "" then Except.ok ()
  else
    match x_signature with
    | none => Except.error ⟨401, "Missing X-Signature header"⟩
    | some sig =>
      if sig = "" then Except.error ⟨401, "Missing X-Signature header"⟩
      else
        let expected_signature := hmacSha256Hex (strBytes secret) body
        if compare_digest sig ("sha256=" ++ expected_signature) then Except.ok ()
        else Except.error ⟨401, "Invalid signature"⟩

/-! ### Webhook payloads and handlers (lines 112–118, 351–451) -/

/-- The `MotionEventWebhook` Pydantic model (lines 112–118); the opaque
motion-data payload is a key-value mapping in insertion order. -/
structure MotionEventWebhook where
  wallet : String
  event_type : String
  timestamp : ℤ
  motion_data : List (String × ℤ)
  metadata : Option (List (String × ℤ))
deriving DecidableEq

/-- Python's `str()` of a dict: `\x7b'k1': v1, 'k2': v2\x7d` in
insertion order. -/
def pyStrDict (d : List (String × ℤ)) : String :=
  "\x7b" ++
    String.intercalate ", " (d.map (fun kv => "\x27" ++ kv.1 ++ "\x27: " ++ toString kv.2)) ++
    "\x7d"

/-- The content hash of a motion-data payload (lines 378–379):
SHA-256 over the canonical string form, in lowercase hex. -/
def motionDataHash (d : List (String × ℤ)) : String := sha256Hex (strBytes (pyStrDict d))

/-- The `AttestationResponse` Pydantic model (lines 130–135), which both
webhook handlers return on success. -/
structure AttestationResponse where
  status : String
  data_hash : String
  trace_id : String
  message : String
deriving DecidableEq

/-- The request-scoped data a handler reads: client identity, the trace
id set by the middleware, the call time, the raw body bytes and the
`X-Signature` header. -/
structure RequestCtx where
  client : Option String
  trace_id : String
  now : ℚ
  body : List ℕ
  x_signature : Option String

/-- The `/webhooks/fitness-tracker` handler (lines 351–400): rate limit,
HMAC verification, then hash the motion data and acknowledge. -/
def fitness_tracker_webhook (st : GatewaySettings) (store : RateStore) (ctx : RequestCtx)
    (event : MotionEventWebhook) : Except GatewayError AttestationResponse × RateStore :=
  match rate_limit st store ctx.client ctx.now with
  | (Except.error e, store1) => (Except.error e, store1)
  | (Except.ok _, store1) =>
    match verify_hmac st.webhook_secret ctx.body ctx.x_signature with
    | Except.error e => (Except.error e, store1)
    | Except.ok _ =>
      let motion_data_str := pyStrDict event.motion_data
      let data_hash := sha256Hex (strBytes motion_data_str)
      (Except.ok ⟨"accepted", data_hash, ctx.trace_id, "Motion event queued for processing"⟩,
       store1)

/-- The `/webhooks/mocap` handler (lines 403–451): textually the same
orchestration as the fitness-tracker handler, with its own log labels
and response message. -/
def mocap_webhook (st : GatewaySettings) (store : RateStore) (ctx : RequestCtx)
    (event : MotionEventWebhook) : Except GatewayError AttestationResponse × RateStore :=
  match rate_limit st store ctx.client ctx.now with
  | (Except.error e, store1) => (Except.error e, store1)
  | (Except.ok _, store1) =>
    match verify_hmac st.webhook_secret ctx.body ctx.x_signature with
    | Except.error e => (Except.error e, store1)
    | Except.ok _ =>
      let motion_data_str := pyStrDict event.motion_data
      let data_hash := sha256Hex (strBytes motion_data_str)
      (Except.ok ⟨"accepted", data_hash, ctx.trace_id, "Mocap event queued for processing"⟩,
       store1)

/-! ### Attestation issuance (lines 121–127, 455–508) -/

/-- The `AttestationRequest` Pydantic model (lines 121–127); both scores
are basis points constrained to `ge=0, le=10000` at the input boundary. -/
structure AttestationRequest where
  embedding_hash : String
  confidence_score : ℤ
  local_density : ℤ
  wallet : String
  compliance : List (String × String)
deriving DecidableEq

/-- The Pydantic field constraints of `AttestationRequest`: both
basis-point fields lie in `[0, 10000]`. -/
def attestationRequestValid (r : AttestationRequest) : Bool :=
  decide (0 ≤ r.confidence_score) && decide (r.confidence_score ≤ 10000) &&
    decide (0 ≤ r.local_density) && decide (r.local_density ≤ 10000)

/-- Python's `int()` on a float: truncation toward zero; on the
non-negative times produced by `time.time()` this is the floor. -/
def pyInt (q : ℚ) : ℤ := if 0 ≤ q then q.floor else -((-q).floor)

/-- The success body of `/attestations/generate` (lines 503–508). -/
structure AttestationGenerated where
  status : String
  nonce : ℤ
  expiry : ℤ
  trace_id : String
deriving DecidableEq

/-- The `generate_attestation` endpoint body (lines 456–508):
`nonce = int(time.time())`, `expiry = nonce + 300`. -/
def generate_attestation (ctx : RequestCtx) (req : AttestationRequest) : AttestationGenerated :=
  let nonce := pyInt ctx.now
  let expiry := nonce + 300
  ⟨"generated", nonce, expiry, ctx.trace_id⟩

/-- The 422 detail for an out-of-range basis-point field, standing for
Pydantic's field-level validation report. -/
def validationDetail : String :=
  "confidence_score and local_density must be in the range 0..10000"

/-- The `/attestations/generate` route (lines 455–459). FastAPI
resolves the `Depends(rate_limit)` dependency before it validates the
`AttestationRequest` body model, so a 429 raised by the rate limiter
pre-empts validation, and the rate-limit store is pruned and appended
even for a request that then fails the field constraints (lines
121–127) with a 422; only a valid, admitted request reaches the
`generate_attestation` endpoint body. -/
def attestations_generate_route (st : GatewaySettings) (store : RateStore) (ctx : RequestCtx)
    (req : AttestationRequest) : Except GatewayError AttestationGenerated × RateStore :=
  match rate_limit st store ctx.client ctx.now with
  | (Except.error e, store1) => (Except.error e, store1)
  | (Except.ok _, store1) =>
    if attestationRequestValid req then
      (Except.ok (generate_attestation ctx req), store1)
    else
      (Except.error ⟨422, validationDetail⟩, store1)

/-- Uppercase image of an ASCII letter; other characters unchanged. -/
def charUpper (c : Char) : Char :=
  if 97 ≤ c.toNat ∧ c.toNat ≤ 122 then Char.ofNat (c.toNat - 32) else c

/-- Lowercase image of an ASCII letter; other characters unchanged. -/
def charLower (c : Char) : Char :=
  if 65 ≤ c.toNat ∧ c.toNat ≤ 90 then Char.ofNat (c.toNat + 32) else c

/-- ASCII uppercase rendering of a string. -/
def strUpper (s : String) : String := String.mk (s.data.map charUpper)

/-- ASCII lowercase rendering of a string. -/
def strLower (s : String) : String := String.mk (s.data.map charLower)

/-- A handler outcome with the human-readable message field erased:
errors unchanged, successes reduced to (status, data_hash, trace_id). -/
def stripMessage :
    Except GatewayError AttestationResponse → Except GatewayError (String × String × String)
  | Except.ok r => Except.ok (r.status, r.data_hash, r.trace_id)
  | Except.error e => Except.error e

/-- The message field of a successful handler outcome. -/
def responseMessage : Except GatewayError AttestationResponse → Option String
  | Except.ok r => some r.message
  | Except.error _ => none

/-! ### SHA-256 and HMAC test vectors -/

/-- FIPS 180-2 test vector: SHA-256 of "abc". -/
example : sha256Hex (strBytes "abc") =
    "ba7816bf8f01cfea414140de5dae2223b00361a396177a9cb410ff61f20015ad" := by decide

/-- RFC 4231 test case 2: HMAC-SHA256 with key "Jefe". -/
example : hmacSha256Hex (strBytes "Jefe") (strBytes "what do ya want for nothing?") =
    "5bdcc146bf60754e6a042426089575c75a003f089d2739839dec58b964ec3843" := by decide

/-! ### Rate-limiter lemmas -/

/-- Writing a key twice keeps only the second write. -/
theorem updateStore_updateStore (s : RateStore) (ip : String) (a b : List ℚ) :
    updateStore (updateStore s ip a) ip b = updateStore s ip b := by
  funext k
  simp only [updateStore]
  split <;> rfl

/-- Reading back the written key. -/
theorem updateStore_same (s : RateStore) (ip : String) (l : List ℚ) :
    updateStore s ip l ip = l := by
  simp [updateStore]

/-- Pruning removes nothing when every timestamp is within the window. -/
theorem pruneList_eq_self (window : ℕ) (now : ℚ) (l : List ℚ)
    (h : ∀ x ∈ l, now - x < (window : ℚ)) : pruneList window now l = l := by
  unfold pruneList
  rw [List.filter_eq_self]
  intro a ha
  simpa using h a ha

/-- Every survivor of a prune is within the window. -/
theorem pruneList_mem_lt (window : ℕ) (now : ℚ) (l : List ℚ) :
    ∀ ts ∈ pruneList window now l, now - ts < (window : ℚ) := by
  intro ts hts
  have := List.of_mem_filter hts
  simpa using this

/-- Pruning at a later instant subsumes an earlier prune. -/
theorem pruneList_pruneList (window : ℕ) (now now' : ℚ) (l : List ℚ) (h : now ≤ now') :
    pruneList window now' (pruneList window now l) = pruneList window now' l := by
  unfold pruneList
  rw [List.filter_filter]
  apply List.filter_congr
  intro x _
  by_cases hx : now' - x < (window : ℚ)
  · have hx2 : now - x < (window : ℚ) := lt_of_le_of_lt (by linarith) hx
    simp [hx, hx2]
  · simp [hx]

/-- The two branches of `rate_limit`, with the branch condition. -/
theorem rate_limit_cases (st : GatewaySettings) (store : RateStore) (client : Option String)
    (now : ℚ) :
    (st.rate_limit_requests ≤ (pruneList st.rate_limit_window now (store (clientIp client))).length ∧
      rate_limit st store client now =
        (Except.error ⟨429, rateLimitDetail st⟩,
         updateStore store (clientIp client)
           (pruneList st.rate_limit_window now (store (clientIp client))))) ∨
    ((pruneList st.rate_limit_window now (store (clientIp client))).length < st.rate_limit_requests ∧
      rate_limit st store client now =
        (Except.ok (),
         updateStore store (clientIp client)
           (pruneList st.rate_limit_window now (store (clientIp client)) ++ [now]))) := by
  unfold rate_limit
  by_cases h : st.rate_limit_requests ≤ (pruneList st.rate_limit_window now (store (clientIp client))).length
  · exact Or.inl ⟨h, by simp [h]⟩
  · exact Or.inr ⟨Nat.lt_of_not_le h, by simp [h]⟩

/-- An under-limit call whose recorded timestamps all sit inside the
window is allowed and appends `now`. -/
theorem rate_limit_allows (st : GatewaySettings) (store : RateStore) (client : Option String)
    (now : ℚ) (l : List ℚ)
    (hl : store (clientIp client) = l)
    (hwin : ∀ x ∈ l, now - x < (st.rate_limit_window : ℚ))
    (hcount : l.length < st.rate_limit_requests) :
    rate_limit st store client now =
      (Except.ok (), updateStore store (clientIp client) (l ++ [now])) := by
  rcases rate_limit_cases st store client now with ⟨hge, _⟩ | ⟨_, heq⟩
  · rw [hl, pruneList_eq_self st.rate_limit_window now l hwin] at hge
    exact absurd hge (Nat.not_le.mpr hcount)
  · rw [heq, hl, pruneList_eq_self st.rate_limit_window now l hwin]

/-- An at-limit call whose recorded timestamps all sit inside the window
is rejected with 429 and appends nothing. -/
theorem rate_limit_rejects (st : GatewaySettings) (store : RateStore) (client : Option String)
    (now : ℚ) (l : List ℚ)
    (hl : store (clientIp client) = l)
    (hwin : ∀ x ∈ l, now - x < (st.rate_limit_window : ℚ))
    (hcount : st.rate_limit_requests ≤ l.length) :
    rate_limit st store client now =
      (Except.error ⟨429, rateLimitDetail st⟩, updateStore store (clientIp client) l) := by
  rcases rate_limit_cases st store client now with ⟨_, heq⟩ | ⟨hlt, _⟩
  · rw [heq, hl, pruneList_eq_self st.rate_limit_window now l hwin]
  · rw [hl, pruneList_eq_self st.rate_limit_window now l hwin] at hlt
    exact absurd hcount (Nat.not_le.mpr hlt)

/-- A burst of calls that all fit inside one window and inside the
request budget is admitted call by call, each timestamp being recorded. -/
theorem runCalls_all_allowed (st : GatewaySettings) (client : Option String) (t0 : ℚ) :
    ∀ (times : List ℚ) (store : RateStore) (done : List ℚ),
    store (clientIp client) = done →
    (∀ x ∈ done, t0 ≤ x ∧ x - t0 < (st.rate_limit_window : ℚ)) →
    (∀ x ∈ times, t0 ≤ x ∧ x - t0 < (st.rate_limit_window : ℚ)) →
    done.length + times.length ≤ st.rate_limit_requests →
    runCalls st store client times =
      (updateStore store (clientIp client) (done ++ times),
       List.replicate times.length true)
  | [], store, done, hdone, _, _, _ => by
    unfold runCalls
    rw [List.append_nil]
    refine Prod.ext ?_ rfl
    funext k
    simp only [updateStore]
    split
    · next hk => rw [hk, hdone]
    · rfl
  | t :: ts, store, done, hdone, hdonewin, htimes, hbudget => by
    have htmem := htimes t (List.mem_cons_self t ts)
    have hstep : rate_limit st store client t =
        (Except.ok (), updateStore store (clientIp client) (done ++ [t])) := by
      apply rate_limit_allows st store client t done hdone
      · intro x hx
        have hx' := hdonewin x hx
        have : t - x ≤ t - t0 := by linarith [hx'.1]
        linarith [htmem.2]
      · have : done.length + (ts.length + 1) ≤ st.rate_limit_requests := by
          simpa [List.length_cons] using hbudget
        omega
    have hrest := runCalls_all_allowed st client t0 ts
      (updateStore store (clientIp client) (done ++ [t])) (done ++ [t])
      (updateStore_same _ _ _)
      (by
        intro x hx
        rcases List.mem_append.mp hx with hx | hx
        · exact hdonewin x hx
        · rcases List.mem_singleton.mp hx with rfl
          exact htmem)
      (fun x hx => htimes x (List.mem_cons_of_mem t hx))
      (by
        have : done.length + (ts.length + 1) ≤ st.rate_limit_requests := by
          simpa [List.length_cons] using hbudget
        simp only [List.length_append, List.length_singleton]
        omega)
    unfold runCalls
    rw [hstep]
    simp only [isAllowed]
    rw [hrest]
    rw [updateStore_updateStore, List.append_assoc]
    simp [List.replicate_succ]

/-! ### Claims about the rate limiter -/

/-- C1: on each call at time `now` the rate limiter first removes the
caller's recorded timestamps older than `now - window_seconds` (every
surviving timestamp is strictly within the trailing window); if the
pruned count is at least `max_requests` it rejects with 429 without
recording the attempt, otherwise it appends `now` and allows.
Consequently, for every identity starting with an empty record,
admitting `max_requests` requests within `window_seconds` succeeds and
one more request within the same window is rejected. -/
theorem rate_limit_sliding_window (st : GatewaySettings) (store : RateStore)
    (client : Option String) (t0 t' : ℚ) (times : List ℚ)
    (hempty : store (clientIp client) = [])
    (hlen : times.length = st.rate_limit_requests)
    (htimes : ∀ x ∈ times, t0 ≤ x ∧ x - t0 < (st.rate_limit_window : ℚ))
    (ht1 : t0 ≤ t') (ht2 : t' - t0 < (st.rate_limit_window : ℚ)) :
    (∀ (s : RateStore) (c : Option String) (n : ℚ),
      (∀ ts ∈ pruneList st.rate_limit_window n (s (clientIp c)),
        n - ts < (st.rate_limit_window : ℚ)) ∧
      rate_limit st s c n =
        (if st.rate_limit_requests ≤
            (pruneList st.rate_limit_window n (s (clientIp c))).length
         then (Except.error ⟨429, rateLimitDetail st⟩,
               updateStore s (clientIp c) (pruneList st.rate_limit_window n (s (clientIp c))))
         else (Except.ok (),
               updateStore s (clientIp c)
                 (pruneList st.rate_limit_window n (s (clientIp c)) ++ [n])))) ∧
    (runCalls st store client times).2 = List.replicate st.rate_limit_requests true ∧
    (rate_limit st (runCalls st store client times).1 client t').1 =
      Except.error ⟨429, rateLimitDetail st⟩ := by
  have hrun := runCalls_all_allowed st client t0 times store []
    hempty (by simp) htimes (by simp [hlen])
  refine ⟨?_, ?_, ?_⟩
  · intro s c n
    refine ⟨pruneList_mem_lt _ _ _, ?_⟩
    rcases rate_limit_cases st s c n with ⟨hge, heq⟩ | ⟨hlt, heq⟩
    · rw [heq, if_pos hge]
    · rw [heq, if_neg (Nat.not_le.mpr hlt)]
  · rw [hrun, hlen]
  · rw [hrun]
    have hstep := rate_limit_rejects st
      (updateStore store (clientIp client) ([] ++ times)) client t' times
      (by rw [List.nil_append]; exact updateStore_same _ _ _)
      (by
        intro x hx
        have hx' := htimes x hx
        have : t' - x ≤ t' - t0 := by linarith [hx'.1]
        linarith)
      (le_of_eq hlen.symm)
    rw [hstep]

/-- Witness for C1 with `max_requests = 2`, `window_seconds = 10`: calls
at times 0 and 1 are both admitted and a further call at time 2 is
rejected with 429. -/
theorem rate_limit_sliding_window_witness :
    (runCalls ⟨"s", 2, 10⟩ emptyStore (some "client") [0, 1]).2 = List.replicate 2 true ∧
    (rate_limit ⟨"s", 2, 10⟩ (runCalls ⟨"s", 2, 10⟩ emptyStore (some "client") [0, 1]).1
        (some "client") 2).1 = Except.error ⟨429, rateLimitDetail ⟨"s", 2, 10⟩⟩ := by
  have h := rate_limit_sliding_window ⟨"s", 2, 10⟩ emptyStore (some "client") 0 2 [0, 1]
    rfl rfl (by decide) (by decide) (by decide)
  exact ⟨h.2.1, h.2.2⟩

/-- C5: a rejected call records nothing: after the rejection the
caller's entry is exactly the pruned form of its previous entry — a
sublist of it, so no new timestamp was appended — and any later call by
that identity returns exactly what it would have returned had the
rejected call never happened. -/
theorem rate_limit_rejection_consumes_no_slot (st : GatewaySettings) (store : RateStore)
    (client : Option String) (now : ℚ)
    (hrej : isAllowed (rate_limit st store client now).1 = false) :
    (rate_limit st store client now).2 (clientIp client) =
      pruneList st.rate_limit_window now (store (clientIp client)) ∧
    ((rate_limit st store client now).2 (clientIp client)).Sublist (store (clientIp client)) ∧
    (∀ now', now ≤ now' →
      rate_limit st (rate_limit st store client now).2 client now' =
        rate_limit st store client now') := by
  rcases rate_limit_cases st store client now with ⟨hge, heq⟩ | ⟨hlt, heq⟩
  · refine ⟨?_, ?_, ?_⟩
    · rw [heq]
      exact updateStore_same _ _ _
    · rw [heq]
      show (updateStore store (clientIp client)
          (pruneList st.rate_limit_window now (store (clientIp client)))
          (clientIp client)).Sublist (store (clientIp client))
      rw [updateStore_same]
      exact List.filter_sublist _
    · intro now' hle
      rw [heq]
      show rate_limit st
        (updateStore store (clientIp client)
          (pruneList st.rate_limit_window now (store (clientIp client)))) client now' = _
      unfold rate_limit
      simp only [updateStore_same, updateStore_updateStore,
        pruneList_pruneList st.rate_limit_window now now' (store (clientIp client)) hle]
  · rw [heq] at hrej
    simp [isAllowed] at hrej

/-- Witness for C5: with a limit of one request per ten seconds and one
recorded timestamp at time 5, a call at time 6 is rejected, leaves the
entry at `[5]`, and a later call at time 7 behaves exactly as it would
have without the rejected call. -/
theorem rate_limit_rejection_consumes_no_slot_witness :
    isAllowed (rate_limit ⟨"s", 1, 10⟩ (updateStore emptyStore "c" [5]) (some "c") 6).1 = false ∧
    (rate_limit ⟨"s", 1, 10⟩ (updateStore emptyStore "c" [5]) (some "c") 6).2
        (clientIp (some "c")) =
      pruneList 10 6 ((updateStore emptyStore "c" [5]) (clientIp (some "c"))) ∧
    ((rate_limit ⟨"s", 1, 10⟩ (updateStore emptyStore "c" [5]) (some "c") 6).2
        (clientIp (some "c"))).Sublist
      ((updateStore emptyStore "c" [5]) (clientIp (some "c"))) ∧
    rate_limit ⟨"s", 1, 10⟩
        (rate_limit ⟨"s", 1, 10⟩ (updateStore emptyStore "c" [5]) (some "c") 6).2
        (some "c") 7 =
      rate_limit ⟨"s", 1, 10⟩ (updateStore emptyStore "c" [5]) (some "c") 7 := by
  have h := rate_limit_rejection_consumes_no_slot ⟨"s", 1, 10⟩
    (updateStore emptyStore "c" [5]) (some "c") 6 (by decide)
  exact ⟨by decide, h.1, h.2.1, h.2.2 7 (by decide)⟩

/-- C9: every call — rejected ones included — replaces the calling
identity's entry by its pruned form, with `now` appended exactly when
the call is allowed, and leaves every other identity's entry unchanged;
the call is rejected precisely when the pruned count has reached
`max_requests`. -/
theorem rate_limit_store_frame (st : GatewaySettings) (store : RateStore)
    (client : Option String) (now : ℚ) :
    (∀ k : String, (rate_limit st store client now).2 k =
      if k = clientIp client then
        (match (rate_limit st store client now).1 with
         | Except.ok _ =>
             pruneList st.rate_limit_window now (store (clientIp client)) ++ [now]
         | Except.error _ =>
             pruneList st.rate_limit_window now (store (clientIp client)))
      else store k) ∧
    (rate_limit st store client now).1 =
      (if st.rate_limit_requests ≤
          (pruneList st.rate_limit_window now (store (clientIp client))).length
       then Except.error ⟨429, rateLimitDetail st⟩
       else Except.ok ()) := by
  rcases rate_limit_cases st store client now with ⟨hge, heq⟩ | ⟨hlt, heq⟩
  · refine ⟨fun k => ?_, ?_⟩
    · rw [heq]
      simp [updateStore]
    · rw [heq, if_pos hge]
  · refine ⟨fun k => ?_, ?_⟩
    · rw [heq]
      simp [updateStore]
    · rw [heq, if_neg (Nat.not_le.mpr hlt)]

/-! ### HMAC verification lemmas -/

/-- Two strings are equal exactly when their character lists are. -/
theorem string_eq_iff_data {a b : String} : a = b ↔ a.data = b.data := by
  constructor
  · intro h
    rw [h]
  · intro h
    cases a
    cases b
    exact congrArg String.mk h

/-- Characters with equal code points are equal. -/
theorem char_toNat_inj {a b : Char} : a.toNat = b.toNat ↔ a = b := by
  constructor
  · intro h
    exact Char.ext (UInt32.ext h)
  · intro h
    rw [h]

/-- The scan's accumulated difference vanishes exactly on equal inputs. -/
theorem ctScan_fst_eq_zero : ∀ a b : List Char, (ctScan a b).1 = 0 ↔ a = b
  | [], bs => by
    simp [ctScan, List.length_eq_zero, eq_comm]
  | _ :: as, [] => by
    simp [ctScan]
  | a :: as, b :: bs => by
    have ih := ctScan_fst_eq_zero as bs
    simp only [ctScan, Nat.add_eq_zero, Nat.xor_eq_zero, ih, char_toNat_inj,
      List.cons.injEq]
    exact and_comm

/-- The scan examines exactly `max` of the two lengths many positions,
whatever the contents. -/
theorem ctScan_snd : ∀ a b : List Char, (ctScan a b).2 = max a.length b.length
  | [], bs => by
    simp [ctScan]
  | a :: as, [] => by
    have ih := ctScan_snd as []
    simp only [ctScan, ih, List.length_nil, List.length_cons]
    omega
  | a :: as, b :: bs => by
    have ih := ctScan_snd as bs
    simp only [ctScan, ih, List.length_cons]
    omega

/-- The modelled `hmac.compare_digest` decides string equality. -/
theorem compare_digest_eq_true_iff {a b : String} : compare_digest a b = true ↔ a = b := by
  unfold compare_digest
  rw [beq_iff_eq, ctScan_fst_eq_zero]
  exact string_eq_iff_data.symm

/-- With a configured secret and a non-empty provided signature,
verification reduces to equality with the expected header value. -/
theorem verify_hmac_spec (secret : String) (body : List ℕ) (sig : String)
    (hsecret : secret ≠ "") (hsig : sig ≠ "") :
    verify_hmac secret body (some sig) =
      (if sig = expectedSig secret body then Except.ok ()
       else Except.error ⟨401, "Invalid signature"⟩) := by
  unfold verify_hmac expectedSig
  rw [if_neg hsecret]
  show (if sig = "" then _ else _) = _
  rw [if_neg hsig]
  by_cases h : sig = "sha256=" ++ hmacSha256Hex (strBytes secret) body
  · rw [if_pos (compare_digest_eq_true_iff.mpr h), if_pos h]
  · rw [if_neg ?_, if_neg h]
    intro hc
    exact h (compare_digest_eq_true_iff.mp hc)

/-- Setting a position of a list to a genuinely different element
changes the list. -/
theorem list_set_ne : ∀ (l : List Char) (i : ℕ) (c : Char) (hi : i < l.length),
    c ≠ l.get ⟨i, hi⟩ → l.set i c ≠ l
  | a :: as, 0, c, _, hc => by
    intro he
    injection he with h1 _
    exact hc h1
  | a :: as, i + 1, c, hi, hc => by
    intro he
    injection he with _ h2
    exact list_set_ne as i c (Nat.lt_of_succ_lt_succ (by simpa using hi)) hc h2

/-- The expected signature header is never the empty string. -/
theorem expectedSig_data_length (secret : String) (body : List ℕ) :
    (expectedSig secret body).data.length =
      7 + (hmacSha256Hex (strBytes secret) body).data.length := by
  unfold expectedSig
  rw [String.data_append "sha256=" (hmacSha256Hex (strBytes secret) body)]
  simp
  omega

/-- The empty string has no characters. -/
theorem empty_string_data : ("" : String).data = [] := rfl

/-- The expected signature header is never the empty string. -/
theorem expectedSig_ne_empty (secret : String) (body : List ℕ) :
    expectedSig secret body ≠ "" := by
  intro h
  have h1 : (expectedSig secret body).data.length = 0 := by
    rw [string_eq_iff_data.mp h, empty_string_data]
    rfl
  rw [expectedSig_data_length] at h1
  omega

/-- Prefixing with the scheme tag is injective in the digest. -/
theorem expectedSig_inj {secret : String} {b1 b2 : List ℕ}
    (h : expectedSig secret b1 = expectedSig secret b2) :
    hmacSha256Hex (strBytes secret) b1 = hmacSha256Hex (strBytes secret) b2 := by
  unfold expectedSig at h
  have hd := string_eq_iff_data.mp h
  rw [String.data_append "sha256=" (hmacSha256Hex (strBytes secret) b1),
    String.data_append "sha256=" (hmacSha256Hex (strBytes secret) b2)] at hd
  exact string_eq_iff_data.mpr (List.append_cancel_left hd)

/-! ### Claims about HMAC verification -/

/-- C2: with a non-empty secret, the correct header
`sha256= ++` lowercase-hex HMAC-SHA256 of the body verifies; any
signature obtained by overwriting one of its characters with a
different one is rejected with 401; replacing the body by one with a
different HMAC digest (as any single-byte flip does on every instance
checked — digest inequality is the cryptographic content of a flip) is
rejected with 401; and with an empty configured secret every body and
every provided signature, absent ones included, verifies. -/
theorem verify_hmac_correct_and_flips (secret : String) (body : List ℕ)
    (hsecret : secret ≠ "") :
    verify_hmac secret body (some (expectedSig secret body)) = Except.ok () ∧
    (∀ (i : ℕ) (c : Char) (hi : i < (expectedSig secret body).data.length),
      c ≠ (expectedSig secret body).data.get ⟨i, hi⟩ →
      statusOf (verify_hmac secret body
        (some (String.mk ((expectedSig secret body).data.set i c)))) = 401) ∧
    (∀ body' : List ℕ,
      hmacSha256Hex (strBytes secret) body' ≠ hmacSha256Hex (strBytes secret) body →
      statusOf (verify_hmac secret body' (some (expectedSig secret body))) = 401) ∧
    (∀ (b : List ℕ) (s : Option String), verify_hmac "" b s = Except.ok ()) := by
  have hexp_ne : expectedSig secret body ≠ "" := expectedSig_ne_empty secret body
  refine ⟨?_, ?_, ?_, ?_⟩
  · rw [verify_hmac_spec secret body _ hsecret hexp_ne, if_pos rfl]
  · intro i c hi hc
    have hflip_ne_sig : String.mk ((expectedSig secret body).data.set i c) ≠
        expectedSig secret body := by
      intro h
      exact list_set_ne (expectedSig secret body).data i c hi hc
        (string_eq_iff_data.mp h)
    have hflip_ne_empty : String.mk ((expectedSig secret body).data.set i c) ≠ "" := by
      intro h
      have h2 := string_eq_iff_data.mp h
      rw [empty_string_data] at h2
      have hl : ((expectedSig secret body).data.set i c).length = 0 := by
        simpa using congrArg List.length h2
      rw [List.length_set] at hl
      omega
    rw [verify_hmac_spec secret body _ hsecret hflip_ne_empty, if_neg hflip_ne_sig]
    rfl
  · intro body' hne
    rw [verify_hmac_spec secret body' _ hsecret hexp_ne]
    rw [if_neg (fun h => hne (expectedSig_inj h).symm)]
    rfl
  · intro b s
    unfold verify_hmac
    rw [if_pos rfl]

/-- Witness for C2 at secret "k" and body [1]: the correct header
verifies, overwriting its first character rejects with 401, the body [2]
(whose digest differs) rejects with 401, and the empty secret accepts a
garbage signature. -/
theorem verify_hmac_correct_and_flips_witness :
    verify_hmac "k" [1] (some (expectedSig "k" [1])) = Except.ok () ∧
    statusOf (verify_hmac "k" [1]
      (some (String.mk ((expectedSig "k" [1]).data.set 0 'Z')))) = 401 ∧
    statusOf (verify_hmac "k" [2] (some (expectedSig "k" [1]))) = 401 ∧
    verify_hmac "" [1] (some "garbage") = Except.ok () := by
  have h := verify_hmac_correct_and_flips "k" [1] (by decide)
  exact ⟨h.1, h.2.1 0 'Z' (by decide) (by decide), h.2.2.1 [2] (by decide),
    h.2.2.2 [1] (some "garbage")⟩

/-- C6: with a configured secret and a present non-empty signature, the
verifier's decision is exactly the modelled constant-time
`compare_digest` applied to the provided signature and the expected
`"sha256=" ++ hexdigest` string; that comparison decides plain string
equality, and the number of positions it scans is the maximum of the
two lengths whatever the contents — it never stops early at the first
mismatched character, so its running time reveals nothing about which
prefix of the signature matched. -/
theorem compare_digest_constant_time (secret : String) (body : List ℕ) (sig : String)
    (hsecret : secret ≠ "") (hsig : sig ≠ "") :
    verify_hmac secret body (some sig) =
      (if compare_digest sig ("sha256=" ++ hmacSha256Hex (strBytes secret) body)
       then Except.ok () else Except.error ⟨401, "Invalid signature"⟩) ∧
    (∀ a b : String, compare_digest a b = true ↔ a = b) ∧
    (∀ a b : String, ctSteps a b = max a.data.length b.data.length) := by
  refine ⟨?_, fun a b => compare_digest_eq_true_iff, fun a b => ctScan_snd a.data b.data⟩
  unfold verify_hmac
  rw [if_neg hsecret]
  show (if sig = "" then _ else _) = _
  rw [if_neg hsig]

/-- Witness for C6: the verifier decides a concrete wrong signature by
the comparison verdict, and the scan counts equal the maxima of the
lengths. -/
theorem compare_digest_constant_time_witness :
    verify_hmac "k" [1] (some "sha256=bogus") =
      (if compare_digest "sha256=bogus" ("sha256=" ++ hmacSha256Hex (strBytes "k") [1])
       then Except.ok () else Except.error ⟨401, "Invalid signature"⟩) ∧
    (compare_digest "ab" "ac" = true ↔ "ab" = "ac") ∧
    ctSteps "abcd" "xy" = max "abcd".data.length "xy".data.length := by
  have h := compare_digest_constant_time "k" [1] "sha256=bogus" (by decide) (by decide)
  exact ⟨h.1, h.2.1 "ab" "ac", h.2.2 "abcd" "xy"⟩

/-- C10: with a configured secret, verification accepts a provided
signature exactly when it is string-equal to `"sha256=" ++` the
lowercase hex digest; concretely, for secret "topsecret" and body
"abc", the correct digest rendered in uppercase hex is rejected with
401 even though it lowercases back to the accepted header value, and
the bare correct digest without the `sha256=` prefix is rejected with
401 as well. -/
theorem verify_hmac_exact_match_only (secret : String) (body : List ℕ)
    (hsecret : secret ≠ "") :
    (∀ sig : String, sig ≠ "" →
      (verify_hmac secret body (some sig) = Except.ok () ↔
        sig = expectedSig secret body)) ∧
    statusOf (verify_hmac "topsecret" (strBytes "abc")
      (some ("sha256=" ++
        strUpper (hmacSha256Hex (strBytes "topsecret") (strBytes "abc"))))) = 401 ∧
    strLower ("sha256=" ++
        strUpper (hmacSha256Hex (strBytes "topsecret") (strBytes "abc"))) =
      expectedSig "topsecret" (strBytes "abc") ∧
    statusOf (verify_hmac "topsecret" (strBytes "abc")
      (some (hmacSha256Hex (strBytes "topsecret") (strBytes "abc")))) = 401 := by
  refine ⟨?_, by decide, by decide, by decide⟩
  intro sig hsig
  rw [verify_hmac_spec secret body sig hsecret hsig]
  by_cases h : sig = expectedSig secret body
  · simp [h]
  · simp [h]

/-- Witness for C10: the acceptance condition instantiated at the
signature "x", together with the concrete uppercase and missing-prefix
rejections. -/
theorem verify_hmac_exact_match_only_witness :
    (verify_hmac "topsecret" (strBytes "abc") (some "x") = Except.ok () ↔
      "x" = expectedSig "topsecret" (strBytes "abc")) ∧
    statusOf (verify_hmac "topsecret" (strBytes "abc")
      (some ("sha256=" ++
        strUpper (hmacSha256Hex (strBytes "topsecret") (strBytes "abc"))))) = 401 ∧
    strLower ("sha256=" ++
        strUpper (hmacSha256Hex (strBytes "topsecret") (strBytes "abc"))) =
      expectedSig "topsecret" (strBytes "abc") ∧
    statusOf (verify_hmac "topsecret" (strBytes "abc")
      (some (hmacSha256Hex (strBytes "topsecret") (strBytes "abc")))) = 401 := by
  have h := verify_hmac_exact_match_only "topsecret" (strBytes "abc") (by decide)
  exact ⟨h.1 "x" (by decide), h.2.1, h.2.2.1, h.2.2.2⟩

/-! ### Claims about the webhook handlers -/

/-- C3 counterexample: at a concrete request (empty secret, so
verification is skipped, and a fresh store) the two handlers' responses
differ — the fitness handler's message field reads "Motion event queued
for processing" while the mocap handler's reads "Mocap event queued for
processing" — so the handlers are not equal as functions of the
request. -/
theorem webhook_handlers_differ :
    (fitness_tracker_webhook ⟨"", 100, 60⟩ emptyStore
        ⟨some "ip", "t1", 0, [], none⟩ ⟨"w", "run", 0, [("x", 1)], none⟩).1 ≠
    (mocap_webhook ⟨"", 100, 60⟩ emptyStore
        ⟨some "ip", "t1", 0, [], none⟩ ⟨"w", "run", 0, [("x", 1)], none⟩).1 := by
  intro h
  have hm := congrArg responseMessage h
  revert hm
  decide

/-- C3 (amended): the two webhook handlers agree on admission,
authentication, the store effect and every response field except the
human-readable message: the stores coincide, errors coincide, and on
success the status, data hash and trace id coincide. -/
theorem webhook_handlers_agree_up_to_message (st : GatewaySettings) (store : RateStore)
    (ctx : RequestCtx) (event : MotionEventWebhook) :
    (fitness_tracker_webhook st store ctx event).2 =
      (mocap_webhook st store ctx event).2 ∧
    stripMessage (fitness_tracker_webhook st store ctx event).1 =
      stripMessage (mocap_webhook st store ctx event).1 := by
  unfold fitness_tracker_webhook mocap_webhook
  cases hr : rate_limit st store ctx.client ctx.now with
  | mk r1 store1 =>
    cases r1 with
    | error e => exact ⟨rfl, rfl⟩
    | ok u =>
      cases hv : verify_hmac st.webhook_secret ctx.body ctx.x_signature with
      | error e => exact ⟨rfl, rfl⟩
      | ok u2 => exact ⟨rfl, rfl⟩

/-- C8: the content hash is a deterministic function of the motion-data
payload — events with equal payloads hash identically whatever their
other fields — and the two distinct concrete payloads x=1 and x=2 hash
differently. -/
theorem motion_data_hash_deterministic :
    (∀ e1 e2 : MotionEventWebhook, e1.motion_data = e2.motion_data →
      motionDataHash e1.motion_data = motionDataHash e2.motion_data) ∧
    motionDataHash [("x", 1)] ≠ motionDataHash [("x", 2)] := by
  refine ⟨fun e1 e2 h => by rw [h], by decide⟩

/-- Witness for C8: two events sharing the payload x=1 but differing in
every other field hash identically. -/
theorem motion_data_hash_deterministic_witness :
    motionDataHash (⟨"w1", "run", 1, [("x", 1)], none⟩ : MotionEventWebhook).motion_data =
      motionDataHash (⟨"w2", "walk", 2, [("x", 1)], some []⟩ : MotionEventWebhook).motion_data ∧
    motionDataHash [("x", 1)] ≠ motionDataHash [("x", 2)] :=
  ⟨motion_data_hash_deterministic.1 ⟨"w1", "run", 1, [("x", 1)], none⟩
      ⟨"w2", "walk", 2, [("x", 1)], some []⟩ rfl,
    motion_data_hash_deterministic.2⟩

/-! ### Claims about attestation issuance -/

/-- C4: for every valid attestation request issued at a non-negative
time `now`, the issuer returns `nonce = floor now` (second resolution)
and `expiry = nonce + 300`, so `expiry - nonce = 300` and
`expiry > nonce` always. -/
theorem generate_attestation_nonce_expiry (ctx : RequestCtx) (req : AttestationRequest)
    (hvalid : attestationRequestValid req = true) (hnow : 0 ≤ ctx.now) :
    (generate_attestation ctx req).nonce = Rat.floor ctx.now ∧
    (generate_attestation ctx req).expiry = Rat.floor ctx.now + 300 ∧
    (generate_attestation ctx req).expiry - (generate_attestation ctx req).nonce = 300 ∧
    (generate_attestation ctx req).nonce < (generate_attestation ctx req).expiry := by
  unfold generate_attestation pyInt
  rw [if_pos hnow]
  refine ⟨rfl, rfl, ?_, ?_⟩
  · show (Rat.floor ctx.now + 300) - Rat.floor ctx.now = 300
    omega
  · show Rat.floor ctx.now < Rat.floor ctx.now + 300
    omega

/-- Witness for C4 at `now = 2001/2`: the nonce is the floor 1000 and
the expiry is 1300. -/
theorem generate_attestation_nonce_expiry_witness :
    (generate_attestation ⟨some "ip", "t", 2001/2, [], none⟩
        ⟨"0xabc", 9000, 100, "0xw", []⟩).nonce = Rat.floor (2001/2 : ℚ) ∧
    (generate_attestation ⟨some "ip", "t", 2001/2, [], none⟩
        ⟨"0xabc", 9000, 100, "0xw", []⟩).expiry = Rat.floor (2001/2 : ℚ) + 300 ∧
    (generate_attestation ⟨some "ip", "t", 2001/2, [], none⟩
        ⟨"0xabc", 9000, 100, "0xw", []⟩).expiry -
      (generate_attestation ⟨some "ip", "t", 2001/2, [], none⟩
        ⟨"0xabc", 9000, 100, "0xw", []⟩).nonce = 300 ∧
    (generate_attestation ⟨some "ip", "t", 2001/2, [], none⟩
        ⟨"0xabc", 9000, 100, "0xw", []⟩).nonce <
      (generate_attestation ⟨some "ip", "t", 2001/2, [], none⟩
        ⟨"0xabc", 9000, 100, "0xw", []⟩).expiry :=
  generate_attestation_nonce_expiry ⟨some "ip", "t", 2001/2, [], none⟩
    ⟨"0xabc", 9000, 100, "0xw", []⟩ (by decide) (by decide)

/-- The boolean validity test spelled out as the range conditions. -/
theorem attestationRequestValid_iff (r : AttestationRequest) :
    attestationRequestValid r = true ↔
      (0 ≤ r.confidence_score ∧ r.confidence_score ≤ 10000 ∧
       0 ≤ r.local_density ∧ r.local_density ≤ 10000) := by
  unfold attestationRequestValid
  simp [Bool.and_eq_true, decide_eq_true_eq, and_assoc]

/-- C7 counterexample: a request with `confidence_score = 10001` from a
client that is over its rate limit (limit one per ten seconds, one
timestamp already recorded) is rejected with the rate limiter's 429,
not with a validation error — the `Depends(rate_limit)` dependency runs
and raises before the body model is validated. -/
theorem attestation_429_preempts_validation :
    (attestations_generate_route ⟨"s", 1, 10⟩ (updateStore emptyStore "c" [5])
        ⟨some "c", "t", 6, [], none⟩ ⟨"0xhash", 10001, 0, "0xw", []⟩).1 =
      Except.error ⟨429, rateLimitDetail ⟨"s", 1, 10⟩⟩ ∧
    (attestations_generate_route ⟨"s", 1, 10⟩ (updateStore emptyStore "c" [5])
        ⟨some "c", "t", 6, [], none⟩ ⟨"0xhash", 10001, 0, "0xw", []⟩).1 ≠
      Except.error ⟨422, validationDetail⟩ := by
  have h1 : (attestations_generate_route ⟨"s", 1, 10⟩ (updateStore emptyStore "c" [5])
      ⟨some "c", "t", 6, [], none⟩ ⟨"0xhash", 10001, 0, "0xw", []⟩).1 =
      Except.error ⟨429, rateLimitDetail ⟨"s", 1, 10⟩⟩ := rfl
  refine ⟨h1, ?_⟩
  rw [h1]
  intro h
  injection h with h2
  have h3 : (429 : ℕ) = 422 := congrArg GatewayError.status h2
  omega

/-- C7 (amended): an attestation request with a basis-point field
outside [0, 10000] never reaches nonce generation, whatever the
settings, store and clock: the rate-limit dependency runs first — its
store effect happens either way — and the request is then rejected with
the 422 validation error when the client was admitted, and with the
rate limiter's 429 when it was not; no attestation value is ever
produced for it. -/
theorem attestation_invalid_never_reaches_nonce (req : AttestationRequest)
    (h : req.confidence_score < 0 ∨ 10000 < req.confidence_score ∨
         req.local_density < 0 ∨ 10000 < req.local_density) :
    ∀ (st : GatewaySettings) (store : RateStore) (ctx : RequestCtx),
      attestations_generate_route st store ctx req =
        ((if isAllowed (rate_limit st store ctx.client ctx.now).1
          then Except.error ⟨422, validationDetail⟩
          else Except.error ⟨429, rateLimitDetail st⟩),
         (rate_limit st store ctx.client ctx.now).2) ∧
      (∀ g : AttestationGenerated,
        (attestations_generate_route st store ctx req).1 ≠ Except.ok g) := by
  intro st store ctx
  have hvalid : attestationRequestValid req = false := by
    cases hb : attestationRequestValid req with
    | false => rfl
    | true =>
      have hr := (attestationRequestValid_iff req).mp hb
      omega
  unfold attestations_generate_route
  rcases rate_limit_cases st store ctx.client ctx.now with ⟨hge, heq⟩ | ⟨hlt, heq⟩ <;>
    rw [heq] <;> constructor
  · simp [isAllowed]
  · intro g
    simp
  · simp [isAllowed, hvalid]
  · intro g
    simp [hvalid]

/-- Witness for C7 at `confidence_score = 10001` with an admitted
client: the route answers the 422 validation error, the store carries
the rate limiter's update, and a sample attestation value is not the
outcome. -/
theorem attestation_invalid_never_reaches_nonce_witness :
    attestations_generate_route ⟨"s", 100, 60⟩ emptyStore
        ⟨some "ip", "t", 5, [], none⟩ ⟨"0xhash", 10001, 0, "0xw", []⟩ =
      ((if isAllowed (rate_limit ⟨"s", 100, 60⟩ emptyStore (some "ip") 5).1
        then Except.error ⟨422, validationDetail⟩
        else Except.error ⟨429, rateLimitDetail ⟨"s", 100, 60⟩⟩),
       (rate_limit ⟨"s", 100, 60⟩ emptyStore (some "ip") 5).2) ∧
    (attestations_generate_route ⟨"s", 100, 60⟩ emptyStore
        ⟨some "ip", "t", 5, [], none⟩ ⟨"0xhash", 10001, 0, "0xw", []⟩).1 ≠
      Except.ok ⟨"generated", 5, 305, "t"⟩ := by
  have h := attestation_invalid_never_reaches_nonce ⟨"0xhash", 10001, 0, "0xw", []⟩
    (by decide) ⟨"s", 100, 60⟩ emptyStore ⟨some "ip", "t", 5, [], none⟩
  exact ⟨h.1, h.2 ⟨"generated", 5, 305, "t"⟩⟩

end KineticGateway
